import Mathlib

/-!
Verification of the Filesystem MCP server (`src/server.py`) against its
specification. The Python code is shallowly embedded: the pure string/path
functions of `posixpath` used by the server (`isabs`, `join`, `normpath`,
`relpath`, `str.startswith`, `str.splitlines`, `str.strip`, `enumerate`)
are translated to executable Lean functions over `String` / `List Char`;
filesystem access is an explicit oracle structure `FS`; the regex engine is
an abstract `RegexEngine` parameter (compile may fail, search tests one
line); exceptions become `Except String`.
-/

namespace MCPFS

/-! ### Python string primitives -/

/-- Boolean test that `pre` is a prefix of `l` (list form of `str.startswith`). -/
def isPrefixList : List Char → List Char → Bool
  | [], _ => true
  | _ :: _, [] => false
  | a :: as, b :: bs => a = b && isPrefixList as bs

/-- Python `s.startswith(pre)`. -/
def pyStartswith (s pre : String) : Bool :=
  isPrefixList pre.data s.data

/-- Python `s.endswith(suf)`. -/
def pyEndswith (s suf : String) : Bool :=
  isPrefixList suf.data.reverse s.data.reverse

/-- Python `s.split(c)` on a single separator character: `"".split(c) = [""]`,
separators at the ends produce empty components. -/
def splitChar (c : Char) : List Char → List (List Char)
  | [] => [[]]
  | x :: xs =>
    if x = c then [] :: splitChar c xs
    else
      match splitChar c xs with
      | [] => [[x]]
      | y :: ys => (x :: y) :: ys

/-- Python `'/'.join(comps)` for slash-free components. -/
def joinComps : List (List Char) → List Char
  | [] => []
  | [c] => c
  | c :: rest => c ++ '/' :: joinComps rest

/-! ### posixpath functions used by the server -/

/-- POSIX `os.path.isabs`: the path starts with a slash. -/
def isabs (p : String) : Bool :=
  pyStartswith p "/"

/-- POSIX `os.path.join(a, b)` (two arguments): an absolute `b` discards `a`;
otherwise a separator is inserted unless `a` is empty or already ends in one. -/
def pjoin (a b : String) : String :=
  if isabs b then b
  else if a = "" ∨ pyEndswith a "/" then a ++ b
  else a ++ "/" ++ b

/-- The count of leading slashes `posixpath.normpath` preserves: one or two
(exactly two initial slashes are kept, three or more collapse to one). -/
def initialSlashes (p : List Char) : Nat :=
  if isPrefixList ['/'] p then
    if isPrefixList ['/', '/'] p ∧ ¬ isPrefixList ['/', '/', '/'] p then 2 else 1
  else 0

/-- The component loop of `posixpath.normpath`: drop empty and `.` components;
keep `..` when at the start of a relative path or after a kept `..`; otherwise
`..` pops the previous component (or vanishes at an absolute root). -/
def normCompsGo (slashes : Nat) (acc : List (List Char)) :
    List (List Char) → List (List Char)
  | [] => acc
  | comp :: rest =>
    if comp = [] ∨ comp = ['.'] then normCompsGo slashes acc rest
    else if comp ≠ ['.', '.'] ∨ (slashes = 0 ∧ acc = []) ∨
        (acc ≠ [] ∧ acc.getLast? = some ['.', '.']) then
      normCompsGo slashes (acc ++ [comp]) rest
    else if acc ≠ [] then normCompsGo slashes acc.dropLast rest
    else normCompsGo slashes acc rest

/-- Python `posixpath.normpath`: collapse separators, resolve `.` and `..` segments
textually (no filesystem access, no symlink resolution). -/
def pyNormpath (s : String) : String :=
  let p := s.data
  if p = [] then "."
  else
    let slashes := initialSlashes p
    let newComps := normCompsGo slashes [] (splitChar '/' p)
    let joined := List.replicate slashes '/' ++ joinComps newComps
    if joined = [] then "." else String.mk joined

/-- Nonempty components of the normalized path, as `posixpath.relpath` computes
them (`[x for x in abspath(p).split(sep) if x]`); the server only calls
`relpath` on absolute paths, for which `abspath` is `normpath`. -/
def pathParts (p : String) : List (List Char) :=
  (splitChar '/' (pyNormpath p).data).filter (fun c => c ≠ [])

/-- Length of the longest common prefix of two component lists
(`len(commonprefix([...]))`). -/
def commonLen : List (List Char) → List (List Char) → Nat
  | a :: as, b :: bs => if a = b then commonLen as bs + 1 else 0
  | _, _ => 0

/-- POSIX `os.path.relpath(path, start)` for the absolute arguments the
server passes: climb out of the uncommon part of `start` with `..` segments,
then descend into the rest of `path`. -/
def relpath (path start : String) : String :=
  let sl := pathParts start
  let pl := pathParts path
  let i := commonLen sl pl
  let rel := List.replicate (sl.length - i) ['.', '.'] ++ pl.drop i
  if rel = [] then "." else String.mk (joinComps rel)

/-! ### Remaining Python string primitives (used by `search_files`) -/

/-- Line boundary characters of Python `str.splitlines`. -/
def isLineBoundary (c : Char) : Bool :=
  c = '\n' || c = '\r' || c = '\x0b' || c = '\x0c' ||
  c = '\x1c' || c = '\x1d' || c = '\x1e' || c = '\x85' ||
  c = '\u2028' || c = '\u2029'

/-- Worker for `str.splitlines`: `cur` is the current line accumulated in
reverse; `\r\n` counts as a single boundary; a trailing boundary does not open
an extra empty line. -/
def splitlinesGo (cur : List Char) : List Char → List (List Char)
  | [] => if cur.isEmpty then [] else [cur.reverse]
  | '\r' :: '\n' :: rest => cur.reverse :: splitlinesGo [] rest
  | c :: cs =>
    if isLineBoundary c then cur.reverse :: splitlinesGo [] cs
    else splitlinesGo (c :: cur) cs

/-- Python `content.splitlines()`. -/
def pySplitlines (s : String) : List String :=
  (splitlinesGo [] s.data).map String.mk

/-- Whitespace in the sense of Python `str.strip()` (characters for which
`str.isspace` holds): ASCII whitespace, the C0 separators, NEL, NBSP and the
Unicode space/separator characters. -/
def pyIsSpace (c : Char) : Bool :=
  (0x09 ≤ c.toNat && c.toNat ≤ 0x0d) || c = ' ' ||
  (0x1c ≤ c.toNat && c.toNat ≤ 0x1f) || c.toNat = 0x85 || c.toNat = 0xa0 ||
  c.toNat = 0x1680 || (0x2000 ≤ c.toNat && c.toNat ≤ 0x200a) ||
  c.toNat = 0x2028 || c.toNat = 0x2029 || c.toNat = 0x202f ||
  c.toNat = 0x205f || c.toNat = 0x3000

/-- Python `line.strip()`: remove leading and trailing whitespace. -/
def pyStrip (s : String) : String :=
  String.mk (((s.data.dropWhile pyIsSpace).reverse.dropWhile pyIsSpace).reverse)

/-- Python `enumerate(xs, start)`. -/
def pyEnumerate (start : Nat) : List α → List (Nat × α)
  | [] => []
  | x :: xs => (start, x) :: pyEnumerate (start + 1) xs

/-- Python truthiness of the optional `content_regex` argument: `None` and the
empty string are falsy (`if content_regex:`). -/
def truthy : Option String → Bool
  | none => false
  | some s => decide (s ≠ "")

/-! ### The server's path sanitizer (`secure_path`, server.py lines 36-58) -/

/-- The sanitizer `secure_path`: join a relative candidate onto `BASE_DIR`, normalize
textually, and accept exactly when the normalized string starts with the
`BASE_DIR` string (`ValueError` becomes `Except.error`). -/
def secure_path (BASE_DIR : String) (path : String) : Except String String :=
  let path := if isabs path then path else pjoin BASE_DIR path
  let normalized_path := pyNormpath path
  if ¬ (pyStartswith normalized_path BASE_DIR) then
    Except.error ("Access denied: Path must be within " ++ BASE_DIR)
  else
    Except.ok normalized_path

/-- The normalized absolute form `secure_path` computes for a candidate:
`normpath(path if isabs(path) else join(BASE_DIR, path))`. -/
def normalizedForm (BASE_DIR path : String) : String :=
  pyNormpath (if isabs path then path else pjoin BASE_DIR path)

/-- Spec-side notion of path containment, from the spec's words: a path lies
at or under the Base Directory when it equals it or extends it past a
separator ("all accepted paths must resolve to a location at or under it").
Used only to compare against the code's string-prefix test. -/
def specUnderBase (base p : String) : Bool :=
  p = base || pyStartswith p (base ++ "/")

/-! ### Filesystem oracle

The OS calls the tools make (`os.path.isfile`/`isdir`, `os.listdir`,
`os.path.getsize`, `open().read()`, `glob.glob`) are modelled as an explicit
oracle; `readText` returns `Except.error` when the Python read or UTF-8
decode raises. -/

structure FS where
  isfile : String → Bool
  isdir : String → Bool
  listdir : String → List String
  getsize : String → Nat
  readText : String → Except String String
  glob : String → Bool → List String

/-! ### `read_file` (server.py lines 61-96) -/

/-- The tool `read_file`: sanitize, require a regular file, read; every raised error is
re-wrapped by the outer handler as `Failed to read file: <inner>`. -/
def read_file (fs : FS) (BASE_DIR path : String) : Except String String :=
  let inner : Except String String :=
    match secure_path BASE_DIR path with
    | Except.error e => Except.error e
    | Except.ok secure_file_path =>
      if ¬ fs.isfile secure_file_path then
        Except.error ("File does not exist: " ++ path)
      else
        fs.readText secure_file_path
  match inner with
  | Except.ok content => Except.ok content
  | Except.error e => Except.error ("Failed to read file: " ++ e)

/-! ### `list_directory` (server.py lines 99-156) -/

/-- One element of the listing (`size` is present only for files, as the
Python dict only gains the key in the file branch). -/
structure DirEntry where
  name : String
  type : String
  is_hidden : Bool
  size : Option Nat
deriving DecidableEq

/-- Loop body of `list_directory`: skip hidden names unless requested,
otherwise append the entry for this child. -/
def listDirStep (fs : FS) (secure_dir_path : String) (include_hidden : Bool)
    (items : List DirEntry) (item : String) : List DirEntry :=
  if ¬ include_hidden ∧ pyStartswith item "." then items
  else
    let item_path := pjoin secure_dir_path item
    let is_dir := fs.isdir item_path
    items ++ [{ name := item,
                type := if is_dir then "directory" else "file",
                is_hidden := pyStartswith item ".",
                size := if is_dir then none else some (fs.getsize item_path) }]

/-- The tool `list_directory`: sanitize, require a directory, fold over `os.listdir`;
errors are re-wrapped as `Failed to list directory: <inner>`. -/
def list_directory (fs : FS) (BASE_DIR path : String)
    (include_hidden : Bool := false) : Except String (List DirEntry) :=
  let inner : Except String (List DirEntry) :=
    match secure_path BASE_DIR path with
    | Except.error e => Except.error e
    | Except.ok secure_dir_path =>
      if ¬ fs.isdir secure_dir_path then
        Except.error ("Directory does not exist: " ++ path)
      else
        Except.ok ((fs.listdir secure_dir_path).foldl
          (listDirStep fs secure_dir_path include_hidden) [])
  match inner with
  | Except.ok items => Except.ok items
  | Except.error e => Except.error ("Failed to list directory: " ++ e)

/-! ### `search_files` (server.py lines 159-240)

The regex engine (`re.compile` / `regex.search`) is abstract: `compile`
returns `Except.error` exactly when `re.compile` raises `re.error`, and
`search` is the anywhere-in-line test `regex.search(line)`. -/

structure RegexEngine (Rx : Type) where
  compile : String → Except String Rx
  search : Rx → String → Bool

/-- One entry of a Search Result's `matches` list. -/
structure SearchMatch where
  line_number : Nat
  content : String
deriving DecidableEq

/-- One Search Result (`matches` is present only when a truthy `content_regex`
was supplied and the file had at least one matching line). -/
structure SearchResult where
  path : String
  size : Nat
  «matches» : Option (List SearchMatch)
deriving DecidableEq

/-- The per-file match loop: `for i, line in enumerate(content.splitlines()):
if regex.search(line): matches.append({line_number: i+1, content: line.strip()})`. -/
def contentMatches (eng : RegexEngine Rx) (rx : Rx) (content : String) :
    List SearchMatch :=
  ((pyEnumerate 0 (pySplitlines content)).filter (fun p => eng.search rx p.2)).map
    (fun p => { line_number := p.1 + 1, content := pyStrip p.2 })

/-- Loop body of `search_files` for one glob hit: non-files are skipped; with
a truthy `content_regex` the file is read, the regex compiled and the match
list built inside a per-file `try` whose `except` logs and skips the file;
the result is kept only if some line matched. Without a truthy regex every
regular file is kept. -/
def processFile (fs : FS) (eng : RegexEngine Rx) (BASE_DIR : String)
    (content_regex : Option String)
    (acc : List SearchResult) (file_path : String) : List SearchResult :=
  if ¬ fs.isfile file_path then acc
  else
    let result : SearchResult :=
      { path := relpath file_path BASE_DIR,
        size := fs.getsize file_path,
        «matches» := none }
    if ¬ truthy content_regex then acc ++ [result]
    else
      match content_regex with
      | none => acc
      | some cr =>
        match fs.readText file_path with
        | Except.error _ => acc
        | Except.ok content =>
          match eng.compile cr with
          | Except.error _ => acc
          | Except.ok rx =>
            let «matches» := contentMatches eng rx content
            if «matches».isEmpty then acc
            else acc ++ [{ result with «matches» := some «matches» }]

/-- The tool `search_files`: sanitize the search path, require a directory, build the
glob pattern (a `**` segment is inserted when `recursive`), and fold the
per-file loop over the glob hits; errors escaping the loop are re-wrapped as
`Failed to search files: <inner>`. -/
def search_files (fs : FS) (eng : RegexEngine Rx) (BASE_DIR : String)
    (pattern : String) (search_path : String := ".") (recursive : Bool := true)
    (content_regex : Option String := none) : Except String (List SearchResult) :=
  let inner : Except String (List SearchResult) :=
    match secure_path BASE_DIR search_path with
    | Except.error e => Except.error e
    | Except.ok secure_search_path =>
      if ¬ fs.isdir secure_search_path then
        Except.error ("Search path does not exist: " ++ search_path)
      else
        let search_pattern :=
          if recursive then pjoin (pjoin secure_search_path "**") pattern
          else pjoin secure_search_path pattern
        Except.ok ((fs.glob search_pattern recursive).foldl
          (processFile fs eng BASE_DIR content_regex) [])
  match inner with
  | Except.ok v => Except.ok v
  | Except.error e => Except.error ("Failed to search files: " ++ e)

/-! ### Change notifier (`ChangeHandler.on_any_event`, server.py lines 250-265) -/

/-- A watchdog filesystem event as the handler sees it. `mtime` is the value
of `os.path.getmtime(src_path) if os.path.exists(src_path) else None` at
handling time (a filesystem oracle folded into the event). -/
structure FsEvent where
  is_directory : Bool
  src_path : String
  event_type : String
  mtime : Option Nat
deriving DecidableEq

/-- One record of the `file_changes` ring. -/
structure ChangeRecord where
  path : String
  type : String
  time : Option Nat
deriving DecidableEq

/-- The handler `on_any_event`: directory events are ignored; otherwise the change record
is appended and, when the ring exceeds 100 entries, the oldest (`pop(0)`) is
evicted. -/
def on_any_event (BASE_DIR : String) (file_changes : List ChangeRecord)
    (event : FsEvent) : List ChangeRecord :=
  if event.is_directory then file_changes
  else
    let change : ChangeRecord :=
      { path := relpath event.src_path BASE_DIR,
        type := event.event_type,
        time := event.mtime }
    let file_changes := file_changes ++ [change]
    if file_changes.length > 100 then file_changes.drop 1 else file_changes

/-! ## Concrete instances used by witnesses and counterexamples -/

/-- Literal-substring test used by the concrete witness engine. -/
def containsSeq (needle : List Char) : List Char → Bool
  | [] => needle.isEmpty
  | c :: cs => isPrefixList needle (c :: cs) || containsSeq needle cs

/-- A concrete regex engine for witnesses: patterns are literal substrings,
and the lone bracket pattern is rejected exactly as `re.compile` rejects it. -/
def demoEngine : RegexEngine String where
  compile s :=
    if s = "[" then Except.error "unterminated character set at position 0"
    else Except.ok s
  search rx line := containsSeq rx.data line.data

/-- A concrete filesystem oracle for witnesses: `/data` holds a readable
`a.txt`, an unreadable `b.txt`, a hidden file and a subdirectory. -/
def fsDemo : FS where
  isfile q := decide (q = "/data/a.txt" ∨ q = "/data/b.txt")
  isdir q := decide (q = "/data" ∨ q = "/data/sub")
  listdir q := if q = "/data" then [".hidden", "a.txt", "sub"] else []
  getsize q := if q = "/data/a.txt" then 10 else 4
  readText q :=
    if q = "/data/a.txt" then Except.ok "alpha beta\n  gamma  \nno match"
    else Except.error ("could not read " ++ q)
  glob pat rec :=
    if pat = "/data/**/*.txt" ∧ rec = true then
      ["/data/a.txt", "/data/b.txt", "/data/sub"]
    else []

/-! ## Helper lemmas -/

theorem isPrefixList_of_append (a b c : List Char)
    (h : isPrefixList (a ++ b) c = true) : isPrefixList a c = true := by
  induction a generalizing c with
  | nil => cases c <;> rfl
  | cons x xs ih =>
    cases c with
    | nil => simp [isPrefixList] at h
    | cons y ys =>
      simp only [List.cons_append, isPrefixList, Bool.and_eq_true] at h ⊢
      exact ⟨h.1, ih ys h.2⟩

theorem pyStartswith_drop_sep (n b : String)
    (h : pyStartswith n (b ++ "/") = true) : pyStartswith n b = true := by
  unfold pyStartswith at h ⊢
  rw [String.data_append] at h
  exact isPrefixList_of_append _ _ _ h

/-! ## C1, C2, C10 — the path sanitizer -/

/-- C2: a candidate whose normalized absolute form extends the Base Directory
past a separator is accepted, and the returned path is that normalized form,
which starts with the Base Directory string followed by a separator. -/
theorem secure_path_under_base (b p : String)
    (h : pyStartswith (normalizedForm b p) (b ++ "/") = true) :
    secure_path b p = Except.ok (normalizedForm b p) ∧
    pyStartswith (normalizedForm b p) (b ++ "/") = true := by
  have hb := pyStartswith_drop_sep _ _ h
  refine ⟨?_, h⟩
  unfold normalizedForm at hb
  unfold secure_path
  simp [hb, normalizedForm]

theorem secure_path_under_base_witness :
    pyStartswith (normalizedForm "/data" "docs/readme.md") ("/data" ++ "/") = true ∧
    (secure_path "/data" "docs/readme.md" =
        Except.ok (normalizedForm "/data" "docs/readme.md") ∧
      pyStartswith (normalizedForm "/data" "docs/readme.md") ("/data" ++ "/") = true) :=
  ⟨by decide, secure_path_under_base "/data" "docs/readme.md" (by decide)⟩

/-- C1 (amended): `secure_path` rejects with the access-denied error exactly
those candidates whose normalized form does not have the Base Directory as a
string prefix; the adversarial sibling (`/data` vs `/data2/secret`) does have
it as a string prefix and is therefore accepted (see the counterexample). -/
theorem secure_path_rejects_nonprefixed (b p : String)
    (h : pyStartswith (normalizedForm b p) b = false) :
    secure_path b p = Except.error ("Access denied: Path must be within " ++ b) := by
  unfold normalizedForm at h
  unfold secure_path
  simp [h]

theorem secure_path_rejects_nonprefixed_witness :
    pyStartswith (normalizedForm "/data" "../../etc/passwd") "/data" = false ∧
    secure_path "/data" "../../etc/passwd" =
      Except.error ("Access denied: Path must be within " ++ "/data") :=
  ⟨by decide, secure_path_rejects_nonprefixed "/data" "../../etc/passwd" (by decide)⟩

/-- C1 counterexample: with base `/data`, the candidate `/data2/secret`
normalizes to itself, lies outside the Base Directory in the spec's
path-containment sense, and yet `secure_path` accepts it. -/
theorem secure_path_sibling_escape :
    specUnderBase "/data" (normalizedForm "/data" "/data2/secret") = false ∧
    secure_path "/data" "/data2/secret" = Except.ok "/data2/secret" :=
  ⟨by decide, rfl⟩

/-- C10: `secure_path` is a pure function of the candidate and the Base
Directory — two calls on the same arguments give identical results, and every
accepted result is exactly the textual normalization of the joined candidate
(the embedding takes no filesystem oracle: the source touches only
`os.path.isabs`, `os.path.join` and `os.path.normpath`, all string functions). -/
theorem secure_path_deterministic (b p : String) (r₁ r₂ : Except String String)
    (h₁ : secure_path b p = r₁) (h₂ : secure_path b p = r₂) :
    r₁ = r₂ ∧ ∀ r, secure_path b p = Except.ok r → r = normalizedForm b p := by
  refine ⟨by rw [← h₁, h₂], ?_⟩
  intro r hr
  unfold secure_path at hr
  unfold normalizedForm
  by_cases hc : pyStartswith (pyNormpath (if isabs p then p else pjoin b p)) b = true
  · simp [hc] at hr
    exact hr.symm
  · simp [hc] at hr

theorem secure_path_deterministic_witness :
    (Except.ok "/data/x" : Except String String) = Except.ok "/data/x" ∧
    "/data/x" = normalizedForm "/data" "x" :=
  ⟨(secure_path_deterministic "/data" "x" (Except.ok "/data/x") (Except.ok "/data/x")
      rfl rfl).1,
   (secure_path_deterministic "/data" "x" (Except.ok "/data/x") (Except.ok "/data/x")
      rfl rfl).2 "/data/x" rfl⟩

/-! ## C5 — the change-record ring -/

theorem on_any_event_length_le (b : String) (l : List ChangeRecord) (e : FsEvent)
    (h : l.length ≤ 100) : (on_any_event b l e).length ≤ 100 := by
  unfold on_any_event
  split
  · exact h
  · dsimp only
    split
    · rename_i hgt
      simp only [List.length_drop, List.length_append, List.length_cons,
        List.length_nil]
      omega
    · rename_i hle
      simp only [List.length_append, List.length_cons, List.length_nil] at hle ⊢
      omega

theorem foldl_on_any_event_length_le (b : String) (evs : List FsEvent)
    (l : List ChangeRecord) (h : l.length ≤ 100) :
    (evs.foldl (on_any_event b) l).length ≤ 100 := by
  induction evs generalizing l with
  | nil => exact h
  | cons e es ih => exact ih _ (on_any_event_length_le b l e h)

/-- The i-th of a family of distinct non-directory events on the same file
(distinguished by their modification timestamps). -/
def mkEv (i : Nat) : FsEvent :=
  { is_directory := false, src_path := "/b/f", event_type := "modified",
    mtime := some i }

/-- The change record `on_any_event` produces for `mkEv i` under base `/b`. -/
def mkRec (i : Nat) : ChangeRecord :=
  { path := "f", type := "modified", time := some i }

/-- 101 sequential events. -/
def evs101 : List FsEvent := (List.range 101).map mkEv

set_option maxRecDepth 100000 in
/-- C5: starting from the empty ring, the ring never exceeds 100 records, and
eviction is strict FIFO: after the 101 sequential events `evs101` the first
event's record is gone and the 101st event's record is present. -/
theorem change_ring_capacity_fifo :
    (∀ (b : String) (evs : List FsEvent),
      (evs.foldl (on_any_event b) []).length ≤ 100) ∧
    mkRec 0 ∉ evs101.foldl (on_any_event "/b") [] ∧
    mkRec 100 ∈ evs101.foldl (on_any_event "/b") [] := by
  refine ⟨fun b evs => foldl_on_any_event_length_le b evs [] (by simp), ?_, ?_⟩ <;>
    decide

/-! ## C6, C9 — `read_file` -/

theorem secure_path_error_msg (b p e : String)
    (h : secure_path b p = Except.error e) :
    e = "Access denied: Path must be within " ++ b := by
  unfold secure_path at h
  by_cases hc : pyStartswith (pyNormpath (if isabs p then p else pjoin b p)) b = true
  · simp [hc] at h
  · simp [hc] at h
    exact h.symm

/-- C6: under a successfully sanitized path, `read_file` fails with the
"does not exist" error whenever the path is not a regular file (in particular
when it names a directory, as a directory is never a regular file), fails
with the wrapped read error when the read or decode fails, and returns the
file's full decoded content otherwise. -/
theorem read_file_error_cases (fs : FS) (b p sp : String)
    (hs : secure_path b p = Except.ok sp)
    (hwf : ∀ q, fs.isdir q = true → fs.isfile q = false) :
    (fs.isfile sp = false →
      read_file fs b p =
        Except.error ("Failed to read file: " ++ ("File does not exist: " ++ p))) ∧
    (fs.isdir sp = true →
      read_file fs b p =
        Except.error ("Failed to read file: " ++ ("File does not exist: " ++ p))) ∧
    (∀ e, fs.isfile sp = true → fs.readText sp = Except.error e →
      read_file fs b p = Except.error ("Failed to read file: " ++ e)) ∧
    (∀ c, fs.isfile sp = true → fs.readText sp = Except.ok c →
      read_file fs b p = Except.ok c) := by
  have h1 : fs.isfile sp = false →
      read_file fs b p =
        Except.error ("Failed to read file: " ++ ("File does not exist: " ++ p)) := by
    intro hf
    unfold read_file
    rw [hs]
    simp [hf]
  refine ⟨h1, fun hd => h1 (hwf sp hd), ?_, ?_⟩
  · intro e hf hre
    unfold read_file
    rw [hs]
    simp [hf, hre]
  · intro c hf hrt
    unfold read_file
    rw [hs]
    simp [hf, hrt]

theorem read_file_error_cases_witness :
    secure_path "/data" "sub" = Except.ok "/data/sub" ∧
    (fsDemo.isfile "/data/sub" = false →
      read_file fsDemo "/data" "sub" =
        Except.error ("Failed to read file: " ++ ("File does not exist: " ++ "sub"))) ∧
    (fsDemo.isdir "/data/sub" = true →
      read_file fsDemo "/data" "sub" =
        Except.error ("Failed to read file: " ++ ("File does not exist: " ++ "sub"))) ∧
    (∀ e, fsDemo.isfile "/data/sub" = true →
      fsDemo.readText "/data/sub" = Except.error e →
      read_file fsDemo "/data" "sub" = Except.error ("Failed to read file: " ++ e)) ∧
    (∀ c, fsDemo.isfile "/data/sub" = true →
      fsDemo.readText "/data/sub" = Except.ok c →
      read_file fsDemo "/data" "sub" = Except.ok c) :=
  ⟨rfl,
   read_file_error_cases fsDemo "/data" "sub" "/data/sub" rfl
     (by
       intro q hq
       simp only [fsDemo, decide_eq_true_eq] at hq ⊢
       rcases hq with h | h <;> subst h <;> decide)⟩

/-- C9: every failure of `read_file` — the sanitizer's access-denied error,
the does-not-exist error and read errors alike — surfaces as one error kind
whose message is `Failed to read file: ` followed by the inner message. -/
theorem read_file_error_wrapped (fs : FS) (b p e : String)
    (h : read_file fs b p = Except.error e) :
    ∃ inner, e = "Failed to read file: " ++ inner ∧
      (inner = "Access denied: Path must be within " ++ b ∨
       inner = "File does not exist: " ++ p ∨
       ∃ sp, secure_path b p = Except.ok sp ∧ fs.isfile sp = true ∧
         fs.readText sp = Except.error inner) := by
  unfold read_file at h
  cases hsp : secure_path b p with
  | error e' =>
    rw [hsp] at h
    simp only [Except.error.injEq] at h
    exact ⟨e', h.symm, Or.inl (secure_path_error_msg b p e' hsp)⟩
  | ok sp =>
    rw [hsp] at h
    by_cases hf : fs.isfile sp = true
    · simp only [hf] at h
      cases hre : fs.readText sp with
      | error e'' =>
        rw [hre] at h
        simp at h
        exact ⟨e'', h.symm, Or.inr (Or.inr ⟨sp, rfl, hf, hre⟩)⟩
      | ok c =>
        rw [hre] at h
        simp at h
    · simp only [hf] at h
      simp at h
      exact ⟨"File does not exist: " ++ p, h.symm, Or.inr (Or.inl rfl)⟩

theorem read_file_error_wrapped_witness :
    ∃ inner,
      "Failed to read file: " ++ ("could not read " ++ "/data/b.txt") =
        "Failed to read file: " ++ inner ∧
      (inner = "Access denied: Path must be within " ++ "/data" ∨
       inner = "File does not exist: " ++ "b.txt" ∨
       ∃ sp, secure_path "/data" "b.txt" = Except.ok sp ∧
         fsDemo.isfile sp = true ∧
         fsDemo.readText sp = Except.error inner) :=
  read_file_error_wrapped fsDemo "/data" "b.txt"
    ("Failed to read file: " ++ ("could not read " ++ "/data/b.txt")) rfl

/-! ## C7 — `list_directory` -/

theorem foldl_listDirStep_no_hidden (fs : FS) (d : String) (l : List String)
    (items : List DirEntry)
    (hitems : ∀ x ∈ items, pyStartswith x.name "." = false) :
    ∀ x ∈ l.foldl (listDirStep fs d false) items,
      pyStartswith x.name "." = false := by
  induction l generalizing items with
  | nil => exact hitems
  | cons a as ih =>
    rw [List.foldl_cons]
    apply ih
    intro x hx
    unfold listDirStep at hx
    by_cases ha : pyStartswith a "." = true
    · simp [ha] at hx
      exact hitems x hx
    · simp [ha] at hx
      rcases hx with hx | hx
      · exact hitems x hx
      · rw [hx]
        simpa using ha

theorem foldl_listDirStep_all_names (fs : FS) (d : String) (l : List String)
    (items : List DirEntry) :
    (l.foldl (listDirStep fs d true) items).map DirEntry.name =
      items.map DirEntry.name ++ l := by
  induction l generalizing items with
  | nil => simp
  | cons a as ih =>
    rw [List.foldl_cons, ih]
    unfold listDirStep
    simp

/-- C7: under a successfully sanitized directory, `list_directory` with
`include_hidden = false` never returns an entry whose name starts with a dot,
and with `include_hidden = true` its entries are exactly the directory's
immediate children, in order. -/
theorem list_directory_hidden_filter (fs : FS) (b p d : String)
    (hd : secure_path b p = Except.ok d) (hdir : fs.isdir d = true) :
    (∀ res, list_directory fs b p false = Except.ok res →
      ∀ entry ∈ res, pyStartswith entry.name "." = false) ∧
    (∀ res, list_directory fs b p true = Except.ok res →
      res.map DirEntry.name = fs.listdir d) := by
  constructor
  · intro res hres
    unfold list_directory at hres
    rw [hd] at hres
    simp [hdir] at hres
    rw [← hres]
    exact foldl_listDirStep_no_hidden fs d _ [] (by simp)
  · intro res hres
    unfold list_directory at hres
    rw [hd] at hres
    simp [hdir] at hres
    rw [← hres]
    simpa using foldl_listDirStep_all_names fs d (fs.listdir d) []

theorem list_directory_hidden_filter_witness :
    secure_path "/data" "." = Except.ok "/data" ∧
    (∀ entry ∈ ([⟨"a.txt", "file", false, some 10⟩,
        ⟨"sub", "directory", false, none⟩] : List DirEntry),
      pyStartswith entry.name "." = false) ∧
    ([⟨".hidden", "file", true, some 4⟩, ⟨"a.txt", "file", false, some 10⟩,
        ⟨"sub", "directory", false, none⟩] : List DirEntry).map DirEntry.name =
      fsDemo.listdir "/data" :=
  ⟨rfl,
   (list_directory_hidden_filter fsDemo "/data" "." "/data" rfl (by decide)).1 _ rfl,
   (list_directory_hidden_filter fsDemo "/data" "." "/data" rfl (by decide)).2 _ rfl⟩

/-! ## `search_files` helper lemmas -/

theorem search_files_ok {Rx : Type} (fs : FS) (eng : RegexEngine Rx)
    (b pat spth d : String) (rec : Bool) (creg : Option String)
    (hd : secure_path b spth = Except.ok d) (hdir : fs.isdir d = true) :
    search_files fs eng b pat spth rec creg = Except.ok
      ((fs.glob (if rec then pjoin (pjoin d "**") pat else pjoin d pat) rec).foldl
        (processFile fs eng b creg) []) := by
  unfold search_files
  rw [hd]
  simp [hdir]

theorem foldl_processFile_none {Rx : Type} (fs : FS) (eng : RegexEngine Rx)
    (b : String) (files : List String) (acc : List SearchResult) :
    files.foldl (processFile fs eng b none) acc =
      acc ++ (files.filter fs.isfile).map
        (fun fp => { path := relpath fp b, size := fs.getsize fp,
                     «matches» := none }) := by
  induction files generalizing acc with
  | nil => simp
  | cons fp rest ih =>
    rw [List.foldl_cons, ih]
    by_cases hf : fs.isfile fp = true
    · simp [processFile, truthy, hf, List.filter_cons]
    · simp [processFile, truthy, hf, List.filter_cons]

theorem foldl_processFile_id {Rx : Type} (fs : FS) (eng : RegexEngine Rx)
    (b : String) (creg : Option String)
    (hstep : ∀ acc fp, processFile fs eng b creg acc fp = acc)
    (files : List String) (acc : List SearchResult) :
    files.foldl (processFile fs eng b creg) acc = acc := by
  induction files generalizing acc with
  | nil => rfl
  | cons fp rest ih => rw [List.foldl_cons, hstep, ih]

theorem processFile_bad_regex {Rx : Type} (fs : FS) (eng : RegexEngine Rx)
    (b cr err : String) (hcr : cr ≠ "") (hbad : eng.compile cr = Except.error err)
    (acc : List SearchResult) (fp : String) :
    processFile fs eng b (some cr) acc fp = acc := by
  unfold processFile
  by_cases hf : fs.isfile fp = true
  · simp only [hf, not_true_eq_false, if_false]
    have ht : truthy (some cr) = true := by simp [truthy, hcr]
    simp only [ht, not_true_eq_false, if_false]
    cases hrt : fs.readText fp with
    | error e => simp
    | ok content => simp [hbad]
  · simp [hf]

theorem mem_of_mem_pyEnumerate {α : Type} {l : List α} {s : Nat} {p : Nat × α}
    (h : p ∈ pyEnumerate s l) : p.2 ∈ l := by
  induction l generalizing s with
  | nil => cases h
  | cons x xs ih =>
    rcases List.mem_cons.mp h with h | h
    · rw [h]
      exact List.mem_cons_self x xs
    · exact List.mem_cons_of_mem _ (ih h)

theorem pyEnumerate_mem_getq {α : Type} {l : List α} {s i : Nat} {x : α}
    (h : (i, x) ∈ pyEnumerate s l) : s ≤ i ∧ l.get? (i - s) = some x := by
  induction l generalizing s with
  | nil => cases h
  | cons y ys ih =>
    rcases List.mem_cons.mp h with h | h
    · obtain ⟨h1, h2⟩ := Prod.mk.injEq i x s y ▸ h
      subst h1
      subst h2
      exact ⟨Nat.le_refl _, by simp⟩
    · obtain ⟨hs, hget⟩ := ih h
      refine ⟨by omega, ?_⟩
      have heq : i - s = (i - (s + 1)) + 1 := by omega
      rw [heq]
      simpa using hget

theorem contentMatches_eq_nil {Rx : Type} (eng : RegexEngine Rx) (rx : Rx)
    (content : String)
    (h : ∀ line ∈ pySplitlines content, eng.search rx line = false) :
    contentMatches eng rx content = [] := by
  unfold contentMatches
  rw [List.filter_eq_nil_iff.mpr, List.map_nil]
  intro p hp
  simp [h p.2 (mem_of_mem_pyEnumerate hp)]

theorem mem_contentMatches {Rx : Type} (eng : RegexEngine Rx) (rx : Rx)
    (content : String) (m : SearchMatch)
    (hm : m ∈ contentMatches eng rx content) :
    ∃ hlt : m.line_number - 1 < (pySplitlines content).length,
      1 ≤ m.line_number ∧
      eng.search rx ((pySplitlines content).get ⟨m.line_number - 1, hlt⟩) = true ∧
      m.content = pyStrip ((pySplitlines content).get ⟨m.line_number - 1, hlt⟩) := by
  unfold contentMatches at hm
  rcases List.mem_map.mp hm with ⟨p, hp, hpm⟩
  obtain ⟨i, line⟩ := p
  rcases List.mem_filter.mp hp with ⟨hpe, hps⟩
  obtain ⟨-, hget⟩ := pyEnumerate_mem_getq (s := 0) hpe
  rw [Nat.sub_zero] at hget
  rcases List.get?_eq_some.mp hget with ⟨hlt, hgeteq⟩
  rw [← hpm]
  simp only [Nat.add_sub_cancel]
  refine ⟨hlt, by omega, ?_, ?_⟩
  · rw [hgeteq]
    simpa using hps
  · rw [hgeteq]

theorem processFile_nomatch {Rx : Type} (fs : FS) (eng : RegexEngine Rx)
    (b cr : String) (rx : Rx) (hcr : cr ≠ "")
    (hcomp : eng.compile cr = Except.ok rx)
    (hnm : ∀ fp content, fs.readText fp = Except.ok content →
      ∀ line ∈ pySplitlines content, eng.search rx line = false)
    (acc : List SearchResult) (fp : String) :
    processFile fs eng b (some cr) acc fp = acc := by
  unfold processFile
  by_cases hf : fs.isfile fp = true
  · simp only [hf, not_true_eq_false, if_false]
    have ht : truthy (some cr) = true := by simp [truthy, hcr]
    simp only [ht, not_true_eq_false, if_false]
    cases hrt : fs.readText fp with
    | error e => simp
    | ok content =>
      simp only [hcomp]
      rw [contentMatches_eq_nil eng rx content (hnm fp content hrt)]
      simp
  · simp [hf]

theorem mem_foldl_processFile {Rx : Type} (fs : FS) (eng : RegexEngine Rx)
    (b cr : String) (files : List String) (acc : List SearchResult)
    (r : SearchResult)
    (hr : r ∈ files.foldl (processFile fs eng b (some cr)) acc) :
    r ∈ acc ∨ ∃ fp, fp ∈ files ∧ fs.isfile fp = true ∧
      r.path = relpath fp b ∧ r.size = fs.getsize fp ∧
      (r.«matches» = none ∨ ∃ content rx,
        fs.readText fp = Except.ok content ∧ eng.compile cr = Except.ok rx ∧
        contentMatches eng rx content ≠ [] ∧
        r.«matches» = some (contentMatches eng rx content)) := by
  induction files generalizing acc with
  | nil => exact Or.inl hr
  | cons fp rest ih =>
    rw [List.foldl_cons] at hr
    rcases ih _ hr with h | ⟨fp', h1, h2, h3, h4, h5⟩
    · -- r came from processing `fp` (or was already in `acc`)
      unfold processFile at h
      by_cases hf : fs.isfile fp = true
      · simp only [hf, not_true_eq_false, if_false] at h
        by_cases ht : truthy (some cr) = true
        · simp only [ht, not_true_eq_false, if_false] at h
          cases hrt : fs.readText fp with
          | error e =>
            rw [hrt] at h
            exact Or.inl h
          | ok content =>
            rw [hrt] at h
            cases hcp : eng.compile cr with
            | error e =>
              rw [hcp] at h
              exact Or.inl h
            | ok rx =>
              rw [hcp] at h
              by_cases hnil : (contentMatches eng rx content).isEmpty = true
              · simp only [hnil, if_true] at h
                exact Or.inl h
              · simp only [hnil, Bool.false_eq_true, if_false] at h
                rcases List.mem_append.mp h with h | h
                · exact Or.inl h
                · rcases List.mem_singleton.mp h with rfl
                  refine Or.inr ⟨fp, List.mem_cons_self fp rest, hf, rfl, rfl, ?_⟩
                  exact Or.inr ⟨content, rx, hrt, rfl,
                    by simpa [List.isEmpty_iff] using hnil, rfl⟩
        · simp only [ht] at h
          simp only [Bool.not_eq_true] at ht
          simp only [ht, Bool.false_eq_true, not_false_eq_true, if_true] at h
          rcases List.mem_append.mp h with h | h
          · exact Or.inl h
          · rcases List.mem_singleton.mp h with rfl
            exact Or.inr ⟨fp, List.mem_cons_self fp rest, hf, rfl, rfl, Or.inl rfl⟩
      · simp only [hf] at h
        simp only [Bool.not_eq_true] at hf
        simp only [hf, Bool.false_eq_true, not_false_eq_true, if_true] at h
        exact Or.inl h
    · exact Or.inr ⟨fp', List.mem_cons_of_mem _ h1, h2, h3, h4, h5⟩

/-! ## C3 — invalid regex does not fail the call -/

/-- C3 counterexample: with a valid search directory, readable glob-matched
files and a `content_regex` that `re.compile` rejects, `search_files` does
not fail — it returns an empty result sequence. -/
theorem search_files_invalid_regex_no_failure :
    demoEngine.compile "[" =
      Except.error "unterminated character set at position 0" ∧
    fsDemo.glob (pjoin (pjoin "/data" "**") "*.txt") true =
      ["/data/a.txt", "/data/b.txt", "/data/sub"] ∧
    fsDemo.readText "/data/a.txt" = Except.ok "alpha beta\n  gamma  \nno match" ∧
    search_files fsDemo demoEngine "/data" "*.txt" "." true (some "[") =
      Except.ok [] :=
  ⟨rfl, rfl, rfl, rfl⟩

/-- C3 (amended): an uncompilable `content_regex` does not fail the call; the
compile error is caught by the per-file handler, every glob-matched file is
skipped, and the call returns an empty result sequence. -/
theorem search_files_invalid_regex_skips_all {Rx : Type} (fs : FS)
    (eng : RegexEngine Rx) (b pat spth cr err d : String) (rec : Bool)
    (hd : secure_path b spth = Except.ok d) (hdir : fs.isdir d = true)
    (hcr : cr ≠ "") (hbad : eng.compile cr = Except.error err) :
    (∀ acc fp, processFile fs eng b (some cr) acc fp = acc) ∧
    search_files fs eng b pat spth rec (some cr) = Except.ok [] := by
  have hstep := processFile_bad_regex fs eng b cr err hcr hbad
  refine ⟨hstep, ?_⟩
  rw [search_files_ok fs eng b pat spth d rec (some cr) hd hdir,
    foldl_processFile_id fs eng b (some cr) hstep]

theorem search_files_invalid_regex_skips_all_witness :
    secure_path "/data" "." = Except.ok "/data" ∧
    fsDemo.isdir "/data" = true ∧
    ("[" : String) ≠ "" ∧
    ((∀ acc fp, processFile fsDemo demoEngine "/data" (some "[") acc fp = acc) ∧
      search_files fsDemo demoEngine "/data" "*.txt" "." true (some "[") =
        Except.ok []) :=
  ⟨rfl, by decide, by decide,
   search_files_invalid_regex_skips_all fsDemo demoEngine "/data" "*.txt" "."
     "[" "unterminated character set at position 0" "/data" true rfl
     (by decide) (by decide) rfl⟩

/-! ## C4 — the regex/no-regex asymmetry -/

/-- C4: without a `content_regex`, the results are exactly one record per
glob-matched regular file, regardless of content; with a compiling
`content_regex`, a file with zero line matches contributes nothing, and a
regex matching no line of any readable file yields the empty sequence. -/
theorem search_files_regex_filter_asymmetry {Rx : Type} (fs : FS)
    (eng : RegexEngine Rx) (b pat spth d : String) (rec : Bool)
    (hd : secure_path b spth = Except.ok d) (hdir : fs.isdir d = true) :
    (search_files fs eng b pat spth rec none = Except.ok
      (((fs.glob (if rec then pjoin (pjoin d "**") pat else pjoin d pat)
            rec).filter fs.isfile).map
        (fun fp => { path := relpath fp b, size := fs.getsize fp,
                     «matches» := none }))) ∧
    (∀ cr rx acc fp content, cr ≠ "" → fs.isfile fp = true →
      fs.readText fp = Except.ok content → eng.compile cr = Except.ok rx →
      contentMatches eng rx content = [] →
      processFile fs eng b (some cr) acc fp = acc) ∧
    (∀ cr rx, cr ≠ "" → eng.compile cr = Except.ok rx →
      (∀ fp content, fs.readText fp = Except.ok content →
        ∀ line ∈ pySplitlines content, eng.search rx line = false) →
      search_files fs eng b pat spth rec (some cr) = Except.ok []) := by
  refine ⟨?_, ?_, ?_⟩
  · rw [search_files_ok fs eng b pat spth d rec none hd hdir,
      foldl_processFile_none]
    simp
  · intro cr rx acc fp content hcr hf hrt hcp hnil
    unfold processFile
    simp only [hf, not_true_eq_false, if_false]
    have ht : truthy (some cr) = true := by simp [truthy, hcr]
    simp only [ht, not_true_eq_false, if_false]
    simp [hrt, hcp, hnil]
  · intro cr rx hcr hcp hnm
    rw [search_files_ok fs eng b pat spth d rec (some cr) hd hdir,
      foldl_processFile_id fs eng b (some cr)
        (processFile_nomatch fs eng b cr rx hcr hcp hnm)]

theorem search_files_regex_filter_asymmetry_witness :
    secure_path "/data" "." = Except.ok "/data" ∧
    fsDemo.isdir "/data" = true ∧
    search_files fsDemo demoEngine "/data" "*.txt" "." true none = Except.ok
      [{ path := "a.txt", size := 10, «matches» := none },
       { path := "b.txt", size := 4, «matches» := none }] ∧
    search_files fsDemo demoEngine "/data" "*.txt" "." true (some "zzz") =
      Except.ok [] :=
  ⟨rfl, by decide,
   ((search_files_regex_filter_asymmetry fsDemo demoEngine "/data" "*.txt" "."
       "/data" true rfl (by decide)).1).trans (by rfl),
   (search_files_regex_filter_asymmetry fsDemo demoEngine "/data" "*.txt" "."
       "/data" true rfl (by decide)).2.2 "zzz" "zzz" (by decide) rfl
     (by
       intro fp content h
       by_cases hfp : fp = "/data/a.txt"
       · subst hfp
         simp [fsDemo] at h
         subst h
         decide
       · simp [fsDemo, hfp] at h)⟩

/-! ## C8 — reported match positions -/

/-- C8: every match reported by `search_files` with a `content_regex` comes
from some glob-matched readable file whose decoded content, split into lines,
has the matching line at physical position `line_number` (1-based), and the
reported `content` is that line with leading and trailing whitespace
trimmed. -/
theorem search_matches_line_numbers {Rx : Type} (fs : FS) (eng : RegexEngine Rx)
    (b pat spth cr : String) (rec : Bool) (res : List SearchResult)
    (r : SearchResult) (ms : List SearchMatch) (m : SearchMatch)
    (hok : search_files fs eng b pat spth rec (some cr) = Except.ok res)
    (hr : r ∈ res) (hm : r.«matches» = some ms) (hmem : m ∈ ms) :
    ∃ content rx, eng.compile cr = Except.ok rx ∧
      (∃ fp, fs.isfile fp = true ∧ fs.readText fp = Except.ok content ∧
        r.path = relpath fp b) ∧
      ms = contentMatches eng rx content ∧
      ∃ hlt : m.line_number - 1 < (pySplitlines content).length,
        1 ≤ m.line_number ∧
        eng.search rx ((pySplitlines content).get
          ⟨m.line_number - 1, hlt⟩) = true ∧
        m.content = pyStrip ((pySplitlines content).get
          ⟨m.line_number - 1, hlt⟩) := by
  unfold search_files at hok
  cases hsp : secure_path b spth with
  | error e =>
    rw [hsp] at hok
    simp at hok
  | ok d =>
    rw [hsp] at hok
    by_cases hdir : fs.isdir d = true
    · simp only [hdir, not_true_eq_false, if_false, Except.ok.injEq] at hok
      rw [← hok] at hr
      rcases mem_foldl_processFile fs eng b cr _ [] r hr with
        h | ⟨fp, _, hfile, hpath, _, hmat⟩
      · cases h
      rcases hmat with hnone | ⟨content, rx, hread, hcomp, _, hsome⟩
      · rw [hm] at hnone
        cases hnone
      · rw [hm] at hsome
        obtain rfl := Option.some.inj hsome
        obtain ⟨hlt, h1, h2, h3⟩ := mem_contentMatches eng rx content m hmem
        exact ⟨content, rx, hcomp, ⟨fp, hfile, hread, hpath⟩, rfl, hlt, h1, h2, h3⟩
    · simp [hdir] at hok

theorem search_matches_line_numbers_witness :
    ∃ content rx, demoEngine.compile "alpha" = Except.ok rx ∧
      (∃ fp, fsDemo.isfile fp = true ∧ fsDemo.readText fp = Except.ok content ∧
        "a.txt" = relpath fp "/data") ∧
      [({ line_number := 1, content := "alpha beta" } : SearchMatch)] =
        contentMatches demoEngine rx content ∧
      ∃ hlt : 0 < (pySplitlines content).length,
        1 ≤ 1 ∧
        demoEngine.search rx ((pySplitlines content).get ⟨0, hlt⟩) = true ∧
        "alpha beta" = pyStrip ((pySplitlines content).get ⟨0, hlt⟩) :=
  search_matches_line_numbers fsDemo demoEngine "/data" "*.txt" "." "alpha" true
    [{ path := "a.txt", size := 10,
       «matches» := some [{ line_number := 1, content := "alpha beta" }] }]
    { path := "a.txt", size := 10,
      «matches» := some [{ line_number := 1, content := "alpha beta" }] }
    [{ line_number := 1, content := "alpha beta" }]
    { line_number := 1, content := "alpha beta" }
    rfl (List.mem_singleton.mpr rfl) rfl (List.mem_singleton.mpr rfl)

end MCPFS
